import Mathlib

/-!
Shallow embedding of `src/main.cpp` (`MyVector<T>`, a reference-counted
copy-on-write container of positionally paired values and names),
instantiated at `T = int` (values are `Int`).

A program state (`State`) is a heap of storage blocks — each heap entry pairs
a block identifier with its shared reference count and its payload (the two
`std::vector`s, modelled as lists together with their capacities) — plus the
list of live `MyVector` handles, each recorded as the identifier of the block
its three member pointers (`m_values`, `m_names`, `m_ref_count`) refer to.
In the C++ source the three members are separate allocations that always
travel together, so one block entry models the triple.

References handed out by the accessors (`T&`, `const T&`, `std::string&`)
are modelled as locations: a pair of a block identifier and a position.
Reading and writing through such a reference is `readValue` / `writeValue`.
-/

set_option linter.unusedVariables false

namespace MyVec

/-- One storage payload: the contents of `*m_values` and `*m_names`,
with their capacities (`std::vector::capacity`). A freshly copied vector is
modelled with capacity equal to its size, and `reserve` / `push_back` grow
capacity to the least amount the standard guarantees. -/
structure Block where
  values : List Int
  names : List String
  vcap : Nat
  ncap : Nat
deriving DecidableEq, Repr

/-- A heap entry: block identifier, shared reference count (`*m_ref_count`),
and payload. -/
abbrev BlockEntry := Nat × Nat × Block

/-- A program state: the heap of blocks, a supply of fresh identifiers
(allocation counter), and the live handles (each the identifier of the block
it points at). -/
structure State where
  blocks : List BlockEntry
  nextId : Nat
  handles : List Nat
deriving DecidableEq, Repr

/-- Look up the (first) heap entry with the given block identifier. -/
def lookupBlock : List BlockEntry → Nat → Option (Nat × Block)
  | [], _ => none
  | (i, rc, b) :: rest, bid => if i = bid then some (rc, b) else lookupBlock rest bid

/-- Replace the reference count and payload of the (first) heap entry with the
given block identifier; other entries are untouched and no entry is added. -/
def setEntry : List BlockEntry → Nat → Nat × Block → List BlockEntry
  | [], _, _ => []
  | (i, rc, b) :: rest, bid, e =>
    if i = bid then (i, e.1, e.2) :: rest else (i, rc, b) :: setEntry rest bid e

/-- Dereference a handle: the identifier, reference count and payload of the
block the handle currently points at. -/
def viewBlock (s : State) (h : Nat) : Option (Nat × Nat × Block) :=
  (s.handles.get? h).bind fun bid =>
    (lookupBlock s.blocks bid).map fun rb => (bid, rb.1, rb.2)

/-- The two exception kinds the source throws by value:
`std::out_of_range` and `std::invalid_argument`, each carrying its
constructor message. -/
inductive CppError where
  | outOfRange : String → CppError
  | invalidArgument : String → CppError
deriving DecidableEq, Repr

/-- True exactly when the computation threw. -/
def isErr {α : Type} : Except CppError α → Bool
  | .error _ => true
  | .ok _ => false

/-- The state with no blocks and no handles. -/
def emptyState : State := ⟨[], 0, []⟩

/-- Default constructor `MyVector()`: allocate a fresh empty block with reference count 1 and a
new handle pointing at it. -/
def newHandle (s : State) : State :=
  ⟨(s.nextId, 1, ⟨[], [], 0, 0⟩) :: s.blocks, s.nextId + 1, s.handles ++ [s.nextId]⟩

/-- Copy constructor `MyVector(const MyVector& other)`: the new handle aliases the source's
block and the shared count is incremented. -/
def copyHandle (s : State) (src : Nat) : State :=
  match viewBlock s src with
  | none => s
  | some (bid, rc, b) =>
    ⟨setEntry s.blocks bid (rc + 1, b), s.nextId, s.handles ++ [bid]⟩

/-- The copy assignment the source actually has: `MyVector` declares none, so
the compiler-generated `operator=` performs a memberwise copy of the three
raw pointers — the destination handle comes to alias the source's block, but
no reference count is incremented and the destination's old block is neither
decremented nor freed. -/
def copyAssignDefault (s : State) (dst src : Nat) : State :=
  match s.handles.get? src with
  | none => s
  | some bid => { s with blocks := s.blocks, handles := s.handles.set dst bid }

/-- Destructor `~MyVector()`: decrement the shared count; when it reaches zero, free the
counter and both vectors (the heap entry is dropped). The destroyed handle is
removed from the live-handle list. -/
def destroyHandle (s : State) (h : Nat) : State :=
  match viewBlock s h with
  | none => s
  | some (bid, rc, b) =>
    if rc - 1 = 0 then
      ⟨(s.blocks.filter fun p => decide (p.1 ≠ bid)), s.nextId, s.handles.eraseIdx h⟩
    else
      ⟨setEntry s.blocks bid (rc - 1, b), s.nextId, s.handles.eraseIdx h⟩

/-- Detachment `MyVector::detach()`: a no-op unless the shared count exceeds 1;
otherwise decrement the old count, and point this handle at a freshly
allocated block (count 1) holding copies of both vectors, in order. -/
def detach (s : State) (h : Nat) : State :=
  match viewBlock s h with
  | some (bid, rc, b) =>
    if 1 < rc then
      ⟨(s.nextId, 1, ⟨b.values, b.names, b.values.length, b.names.length⟩) ::
        setEntry s.blocks bid (rc - 1, b),
       s.nextId + 1, s.handles.set h s.nextId⟩
    else s
  | none => s

/-- Append `push_back(value, name)`: detach, then append the value and the name at
matching positions. -/
def push_back (s : State) (h : Nat) (v : Int) (nm : String) : State :=
  let t := detach s h
  match viewBlock t h with
  | none => t
  | some (bid, rc, b) =>
    let nb : Block := ⟨b.values ++ [v], b.names ++ [nm],
      max b.vcap (b.values.length + 1), max b.ncap (b.names.length + 1)⟩
    { t with blocks := setEntry t.blocks bid (rc, nb) }

/-- Clearing `clear()`: detach, then empty both vectors (capacity is retained, as
`std::vector::clear` retains it). -/
def clear (s : State) (h : Nat) : State :=
  let t := detach s h
  match viewBlock t h with
  | none => t
  | some (bid, rc, b) =>
    { t with blocks := setEntry t.blocks bid (rc, ⟨[], [], b.vcap, b.ncap⟩) }

/-- Capacity request `reserve(n)` as the source writes it: reserve capacity on both vectors of
the block the handle currently points at — there is no call to `detach`, so
this acts directly on a possibly shared block. -/
def reserve (s : State) (h : Nat) (n : Nat) : State :=
  match viewBlock s h with
  | none => s
  | some (bid, rc, b) =>
    let nb : Block := ⟨b.values, b.names, max b.vcap n, max b.ncap n⟩
    { s with blocks := setEntry s.blocks bid (rc, nb) }

/-- Size query `size()`: the length of `*m_values`. -/
def sizeOfHandle (s : State) (h : Nat) : Option Nat :=
  (viewBlock s h).map fun e => e.2.2.values.length

/-- First-match scan `std::find(m_names->cbegin(), m_names->cend(), name)`, as the position of
the first list element equal to `nm`. -/
def findName : List String → String → Option Nat
  | [], _ => none
  | a :: rest, nm => if a = nm then some 0 else (findName rest nm).map (· + 1)

/-- Mutable positional access `operator[](size_t index)`: bounds check against
`m_values->size()` first (throwing `std::out_of_range("Index is out of
range")`), then `detach()`, then hand out references at that index into the
now-current block. Returns the possibly changed state together with the
thrown error or the location of the returned reference pair. -/
def opIndexMut (s : State) (h : Nat) (i : Nat) : State × Except CppError (Nat × Nat) :=
  match viewBlock s h with
  | none => (s, .error (.outOfRange "Index is out of range"))
  | some (bid, rc, b) =>
    if b.values.length ≤ i then (s, .error (.outOfRange "Index is out of range"))
    else
      let t := detach s h
      match viewBlock t h with
      | none => (t, .error (.outOfRange "Index is out of range"))
      | some (bid2, rc2, b2) => (t, .ok (bid2, i))

/-- Immutable positional access `operator[](size_t index) const`: bounds check, then const references at
that index. Never changes the state (the member function is const and calls
nothing mutating). -/
def opIndexConst (s : State) (h : Nat) (i : Nat) : Except CppError (Nat × Nat) :=
  match viewBlock s h with
  | none => .error (.outOfRange "Index is out of range")
  | some (bid, rc, b) =>
    if b.values.length ≤ i then .error (.outOfRange "Index is out of range")
    else .ok (bid, i)

/-- Immutable name lookup `operator[](const std::string& name) const`: linear scan of `*m_names`;
on a miss throw `std::invalid_argument(name + " is not found in the
MyVector")`, otherwise a const reference to the value at the first matching
position. -/
def opNameConst (s : State) (h : Nat) (nm : String) : Except CppError (Nat × Nat) :=
  match viewBlock s h with
  | none => .error (.invalidArgument (nm ++ " is not found in the MyVector"))
  | some (bid, rc, b) =>
    match findName b.names nm with
    | none => .error (.invalidArgument (nm ++ " is not found in the MyVector"))
    | some i => .ok (bid, i)

/-- Mutable name lookup `operator[](const std::string& name)`: the source
body is a const_cast of a call to the const overload
— it delegates to the const overload and strips constness. It performs no
detach and no mutation, so the state comes back unchanged. -/
def opNameMut (s : State) (h : Nat) (nm : String) : State × Except CppError (Nat × Nat) :=
  (s, opNameConst s h nm)

/-- Mutable iteration `begin()` / `end()`: a call to `detach()` then an iterator into
`*m_values`; only the state effect is modelled. -/
def beginMut (s : State) (h : Nat) : State := detach s h

/-- Read through a value reference (a block identifier and a position). -/
def readValue (s : State) (bid i : Nat) : Option Int :=
  (lookupBlock s.blocks bid).bind fun rb => rb.2.values.get? i

/-- Write through a value reference: `ref = v` on the `T&` handed out by a
mutable accessor stores `v` at that position of that block. -/
def writeValue (s : State) (bid i : Nat) (v : Int) : State :=
  match lookupBlock s.blocks bid with
  | none => s
  | some (rc, b) =>
    { s with blocks := setEntry s.blocks bid (rc, { b with values := b.values.set i v }) }

/-- Everything observable through a handle without mutating: the value
sequence and the name sequence of its block. -/
def observe (s : State) (h : Nat) : Option (List Int × List String) :=
  (viewBlock s h).map fun e => (e.2.2.values, e.2.2.names)

/-- The shared reference count of the block a handle points at. -/
def refCountOf (s : State) (h : Nat) : Option Nat :=
  (viewBlock s h).map fun e => e.2.1

/-- The reference-counting invariant: every block's stored count equals the
number of live handles pointing at it. -/
def refCountOk (s : State) : Prop :=
  ∀ p ∈ s.blocks, p.2.1 = s.handles.count p.1

instance (s : State) : Decidable (refCountOk s) :=
  List.decidableBAll _ s.blocks

/-- Allocation-counter freshness: every block identifier in the heap is below
the allocation counter, so a newly allocated identifier is distinct from all
existing ones. Every state reachable from `emptyState` satisfies this. -/
def idsFresh (s : State) : Prop :=
  ∀ p ∈ s.blocks, p.1 < s.nextId

instance (s : State) : Decidable (idsFresh s) :=
  List.decidableBAll _ s.blocks


/-! Concrete scenario states, built by the operations above. -/

/-- Two independently default-constructed handles (two blocks, each count 1). -/
def sTwoHandles : State := newHandle (newHandle emptyState)

/-- One handle holding the single entry ("a", 1), then copy-constructed:
two handles share one block with reference count 2. -/
def sOne : State := copyHandle (push_back (newHandle emptyState) 0 1 "a") 0

/-- A freshly constructed empty handle and a copy of it (count 2). -/
def sShared : State := copyHandle (newHandle emptyState) 0

/-- A single exclusively owned handle with three entries. -/
def sThree : State := ⟨[(0, 1, ⟨[1, 2, 3], ["a", "b", "c"], 3, 3⟩)], 1, [0]⟩

/-- A single exclusively owned handle with four entries. -/
def sFour : State := ⟨[(0, 1, ⟨[4, 5, 6, 7], ["d", "e", "f", "g"], 4, 4⟩)], 1, [0]⟩

/-- The container of the spec's first-match example: entries
("a", 1), ("b", 2), ("a", 3), exclusively owned. -/
def sEx : State := ⟨[(0, 1, ⟨[1, 2, 3], ["a", "b", "a"], 3, 3⟩)], 1, [0]⟩

/-- C1: with no user-declared copy assignment, `MyVector`, the compiler-generated
`operator=` copies the three raw pointers memberwise and touches no
reference count. Starting from two independently constructed handles (where
the invariant "count = number of live handles per block" holds), one default
copy assignment leaves the aliased block at count 1 with two handles on it
and the orphaned block at count 1 with no handle — the invariant is broken. -/
theorem C1_default_copy_assign_breaks_invariant :
    refCountOk sTwoHandles ∧ ¬ refCountOk (copyAssignDefault sTwoHandles 1 0) :=
  ⟨by decide, by decide⟩

/-- C2: the non-const name-keyed `operator[]` is a plain const_cast of the
const overload and never calls `detach`. On a shared container (count 2) the
lookup succeeds, the state is returned unchanged still at count 2, and the
returned mutable reference points into the shared block: writing through it
mutates a block whose reference count is 2, violating the claim. -/
theorem C2_mut_name_lookup_never_detaches :
    opNameMut sOne 1 "a" = (sOne, .ok (0, 0)) ∧
    refCountOf sOne 1 = some 2 ∧
    refCountOf (writeValue sOne 0 0 99) 1 = some 2 ∧
    readValue (writeValue sOne 0 0 99) 0 0 = some 99 :=
  ⟨rfl, rfl, rfl, rfl⟩

/-- C3: after copy-constructing B (handle 1) from A (handle 0), writing 99
through B's mutable name lookup (which returns a reference into the still
shared block) changes the value observable through A from 1 to 99. -/
theorem C3_mutation_through_copy_visible_in_original :
    observe sOne 0 = some ([1], ["a"]) ∧
    opNameMut sOne 1 "a" = (sOne, .ok (0, 0)) ∧
    observe (writeValue sOne 0 0 99) 0 = some ([99], ["a"]) :=
  ⟨rfl, rfl, rfl⟩

/-- Element type instantiated at pointers (addresses into a heap of ints):
the only instantiation at which the non-const positional accessor's returned
value expression `*(*m_values)[index]` is even well-formed, since it applies
unary `*` to the stored element. -/
structure PtrWorld where
  heap : List Int
  values : List Nat
  names : List String
deriving DecidableEq, Repr

/-- Reading through the value reference the non-const positional `operator[]`
returns: the source returns a reference to `*(*m_values)[index]`, i.e. to the
pointee of the stored element, so the read yields `heap[values[i]]`. -/
def mutPosRead (w : PtrWorld) (i : Nat) : Option Int :=
  (w.values.get? i).bind fun a => w.heap.get? a

/-- The element actually stored at position `i` of the value sequence. -/
def storedValue (w : PtrWorld) (i : Nat) : Option Nat :=
  w.values.get? i

/-- A one-entry pointer container: the stored element is the address 7, and
the heap holds 42 at address 7. -/
def wPtr : PtrWorld := ⟨List.replicate 7 0 ++ [42], [7], ["p"]⟩

/-- C4: the non-const positional accessor builds its result from
`*(*m_values)[index]` — the stored element dereferenced — instead of
`(*m_values)[index]`. At the pointer instantiation the reference it hands
out denotes the pointee (42 here), not the element stored at that position
(the address 7); for a non-dereferenceable element type the expression does
not compile at all. -/
theorem C4_mut_positional_returns_pointee :
    mutPosRead wPtr 0 = some 42 ∧ storedValue wPtr 0 = some 7 :=
  ⟨rfl, rfl⟩

/-- C5 counterexample: `reserve` performs no detach. On a shared container
(count 2), the claim says reserve first ensures exclusive ownership, i.e.
afterwards the handle's block would have count 1; in the source the count is
still 2 after `reserve`. -/
theorem C5_counterexample_reserve_keeps_sharing :
    refCountOf (reserve sShared 1 5) 1 = some 2 ∧
    refCountOf (reserve sShared 1 5) 1 ≠ some 1 :=
  ⟨rfl, by decide⟩

/-- C6 counterexample: the thrown positional-access error is
`std::out_of_range("Index is out of range")` with a fixed message. Accessing
index 3 of a 3-element container and index 5 of a 4-element container throw
equal error values, so the error cannot carry the offending index and the
current size, contrary to the claim. -/
theorem C6_counterexample_error_lacks_index_and_size :
    opIndexMut sThree 0 3 = (sThree, .error (.outOfRange "Index is out of range")) ∧
    opIndexConst sFour 0 5 = .error (.outOfRange "Index is out of range") ∧
    (opIndexMut sThree 0 3).2 = opIndexConst sFour 0 5 ∧
    ((3, 3) : Nat × Nat) ≠ ((5, 4) : Nat × Nat) :=
  ⟨rfl, rfl, rfl, by decide⟩


/-! Structural lemmas about the embedding. -/

/-- Looking a block up after `setEntry`: the targeted identifier now maps to
the new entry (when it was present at all), every other identifier is
untouched. -/
theorem lookupBlock_setEntry (bl : List BlockEntry) (bid : Nat) (e : Nat × Block) (q : Nat) :
    lookupBlock (setEntry bl bid e) q =
      if q = bid then (lookupBlock bl bid).map fun _ => e else lookupBlock bl q := by
  induction bl with
  | nil => simp [lookupBlock, setEntry]
  | cons p rest ih =>
    obtain ⟨i, rc, b⟩ := p
    by_cases hib : i = bid
    · subst hib
      by_cases hq : q = i
      · subst hq
        simp [setEntry, lookupBlock]
      · have hq2 : ¬ i = q := fun hc => hq hc.symm
        simp [setEntry, lookupBlock, hq, hq2]
    · by_cases hq : q = i
      · subst hq
        simp [setEntry, lookupBlock, hib]
      · have hq2 : ¬ i = q := fun hc => hq hc.symm
        simp [setEntry, lookupBlock, hib, hq, hq2, ih]

/-- A successful lookup yields a member of the heap with that identifier. -/
theorem lookupBlock_mem {bl : List BlockEntry} {bid : Nat} {rb : Nat × Block}
    (hl : lookupBlock bl bid = some rb) : (bid, rb.1, rb.2) ∈ bl := by
  induction bl with
  | nil => simp [lookupBlock] at hl
  | cons p rest ih =>
    obtain ⟨i, rc, b⟩ := p
    by_cases hib : i = bid
    · subst hib
      simp [lookupBlock] at hl
      simp [← hl]
    · simp only [lookupBlock, if_neg hib] at hl
      simp [ih hl]

/-- A successful handle dereference pins down the handle's stored block
identifier. -/
theorem viewBlock_handles {s : State} {h bid rc : Nat} {b : Block}
    (hv : viewBlock s h = some (bid, rc, b)) : s.handles.get? h = some bid := by
  unfold viewBlock at hv
  cases hh : s.handles.get? h with
  | none => rw [hh] at hv; cases hv
  | some q =>
    rw [hh, Option.some_bind] at hv
    cases hl : lookupBlock s.blocks q with
    | none => rw [hl] at hv; cases hv
    | some rb =>
      rw [hl, Option.map_some'] at hv
      cases hv
      rfl

/-- A successful handle dereference pins down the looked-up heap entry. -/
theorem viewBlock_lookup {s : State} {h bid rc : Nat} {b : Block}
    (hv : viewBlock s h = some (bid, rc, b)) : lookupBlock s.blocks bid = some (rc, b) := by
  unfold viewBlock at hv
  cases hh : s.handles.get? h with
  | none => rw [hh] at hv; cases hv
  | some q =>
    rw [hh, Option.some_bind] at hv
    cases hl : lookupBlock s.blocks q with
    | none => rw [hl] at hv; cases hv
    | some rb =>
      rw [hl, Option.map_some'] at hv
      cases hv
      rw [hl]

/-- A handle that dereferences successfully is in range of the handle list. -/
theorem viewBlock_handle_lt {s : State} {h bid rc : Nat} {b : Block}
    (hv : viewBlock s h = some (bid, rc, b)) : h < s.handles.length := by
  have hh := viewBlock_handles hv
  by_contra hc
  rw [List.get?_eq_none.mpr (Nat.le_of_not_lt hc)] at hh
  cases hh

/-- Handle dereference after replacing one heap entry, the replacement
keeping the identifier: the dereference of every handle on that block sees
the new entry, every other handle is untouched. -/
theorem viewBlock_setEntry (s : State) (bid rc0 rc : Nat) (b0 nb : Block)
    (hl : lookupBlock s.blocks bid = some (rc0, b0)) (g : Nat) :
    viewBlock { s with blocks := setEntry s.blocks bid (rc, nb) } g =
      if s.handles.get? g = some bid then some (bid, rc, nb) else viewBlock s g := by
  unfold viewBlock
  cases hg : s.handles.get? g with
  | none => simp
  | some q =>
    simp only [Option.some_bind]
    rw [lookupBlock_setEntry]
    by_cases hq : q = bid
    · subst hq
      simp [hl]
    · simp [hq]

/-- Detachment is a no-op on an exclusively owned (or over-released) block. -/
theorem detach_not_shared {s : State} {h bid rc : Nat} {b : Block}
    (hv : viewBlock s h = some (bid, rc, b)) (hrc : rc ≤ 1) : detach s h = s := by
  simp only [detach, hv]
  rw [if_neg (Nat.not_lt.mpr hrc)]

/-- Detachment of a genuinely shared block: the handle afterwards sees the
freshly allocated block, with count 1 and the same value and name sequences. -/
theorem detach_shared_view {s : State} {h bid rc : Nat} {b : Block}
    (hv : viewBlock s h = some (bid, rc, b)) (hrc : 1 < rc) :
    viewBlock (detach s h) h =
      some (s.nextId, 1, ⟨b.values, b.names, b.values.length, b.names.length⟩) := by
  have hlen := viewBlock_handle_lt hv
  simp only [detach, hv, if_pos hrc]
  unfold viewBlock
  rw [List.get?_set_eq_of_lt _ hlen, Option.some_bind]
  simp [lookupBlock]

/-- Detachment of a genuinely shared block: the old block keeps its payload
and its count drops by exactly one. -/
theorem detach_shared_old {s : State} {h bid rc : Nat} {b : Block}
    (hv : viewBlock s h = some (bid, rc, b)) (hrc : 1 < rc) (hne : bid ≠ s.nextId) :
    lookupBlock (detach s h).blocks bid = some (rc - 1, b) := by
  have hl := viewBlock_lookup hv
  simp only [detach, hv, if_pos hrc]
  simp only [lookupBlock, if_neg (Ne.symm hne)]
  rw [lookupBlock_setEntry]
  simp [hl]

/-- First-match name scan misses exactly on absent names. -/
theorem findName_eq_none {ns : List String} {nm : String} :
    findName ns nm = none ↔ nm ∉ ns := by
  induction ns with
  | nil => simp [findName]
  | cons a t ih =>
    by_cases ha : a = nm
    · subst ha
      simp [findName]
    · have ha2 : ¬ nm = a := fun hc => ha hc.symm
      simp [findName, ha, Option.map_eq_none', ih, ha2]

/-- A successful first-match scan returns a position holding the name, with
no earlier position holding it. -/
theorem findName_some {ns : List String} {nm : String} {i : Nat}
    (hf : findName ns nm = some i) :
    ns.get? i = some nm ∧ ∀ j, j < i → ns.get? j ≠ some nm := by
  induction ns generalizing i with
  | nil => simp [findName] at hf
  | cons a t ih =>
    by_cases ha : a = nm
    · simp only [findName] at hf
      rw [if_pos ha] at hf
      cases hf
      refine ⟨by simp [ha], ?_⟩
      intro j hj
      exact absurd hj (Nat.not_lt_zero j)
    · simp only [findName] at hf
      rw [if_neg ha] at hf
      rcases Option.map_eq_some'.mp hf with ⟨i0, hi0, hieq⟩
      subst hieq
      obtain ⟨h1, h2⟩ := ih hi0
      refine ⟨by simpa using h1, ?_⟩
      intro j hj
      cases j with
      | zero =>
        simp only [List.get?_cons_zero]
        intro hc
        exact ha (Option.some_inj.mp hc)
      | succ k =>
        simp only [List.get?_cons_succ]
        exact h2 k (by omega)

/-- C5 (amended): `reserve(n)` does not ensure exclusive ownership — it
changes no handle, no reference count and no stored value or name anywhere;
it only grows the capacity fields of the block the handle points at (which
may still be shared) to at least `n`. -/
theorem C5_reserve_no_detach_no_content_change (s : State) (h n bid rc : Nat) (b : Block)
    (hv : viewBlock s h = some (bid, rc, b)) :
    (reserve s h n).handles = s.handles ∧
    (∀ g, observe (reserve s h n) g = observe s g) ∧
    (∀ g, refCountOf (reserve s h n) g = refCountOf s g) ∧
    viewBlock (reserve s h n) h =
      some (bid, rc, ⟨b.values, b.names, max b.vcap n, max b.ncap n⟩) := by
  have hl := viewBlock_lookup hv
  have hh := viewBlock_handles hv
  have hres : reserve s h n =
      { s with blocks := setEntry s.blocks bid (rc, ⟨b.values, b.names, max b.vcap n, max b.ncap n⟩) } := by
    simp only [reserve, hv]
  refine ⟨by rw [hres], ?_, ?_, ?_⟩
  · intro g
    unfold observe
    rw [hres, viewBlock_setEntry s bid rc rc b _ hl g]
    by_cases hg : s.handles.get? g = some bid
    · rw [if_pos hg]
      unfold viewBlock
      rw [hg, Option.some_bind, hl, Option.map_some', Option.map_some', Option.map_some']
    · rw [if_neg hg]
  · intro g
    unfold refCountOf
    rw [hres, viewBlock_setEntry s bid rc rc b _ hl g]
    by_cases hg : s.handles.get? g = some bid
    · rw [if_pos hg]
      unfold viewBlock
      rw [hg, Option.some_bind, hl, Option.map_some', Option.map_some', Option.map_some']
    · rw [if_neg hg]
  · rw [hres, viewBlock_setEntry s bid rc rc b _ hl h, if_pos hh]

/-- C5 witness: instantiating the amended reserve theorem on the shared
two-handle state. -/
theorem C5_reserve_witness :
    (reserve sShared 1 5).handles = sShared.handles ∧
    refCountOf (reserve sShared 1 5) 0 = refCountOf sShared 0 := by
  have hc := C5_reserve_no_detach_no_content_change sShared 1 5 0 2 ⟨[], [], 0, 0⟩ rfl
  exact ⟨hc.1, hc.2.2.1 0⟩

/-- C6 (amended): positional access, both variants, throws exactly when the
index reaches the size; the thrown value is `std::out_of_range` with the
fixed message "Index is out of range" (it does not record the index or the
size), and in the mutable variant the throw happens before `detach`, with
the state handed back unchanged. -/
theorem C6_index_error_exact (s : State) (h i bid rc : Nat) (b : Block)
    (hv : viewBlock s h = some (bid, rc, b)) :
    (isErr (opIndexMut s h i).2 = true ↔ b.values.length ≤ i) ∧
    (b.values.length ≤ i →
      opIndexMut s h i = (s, .error (.outOfRange "Index is out of range"))) ∧
    (isErr (opIndexConst s h i) = true ↔ b.values.length ≤ i) ∧
    (b.values.length ≤ i →
      opIndexConst s h i = .error (.outOfRange "Index is out of range")) := by
  by_cases hi : b.values.length ≤ i
  · simp [opIndexMut, opIndexConst, hv, hi, isErr]
  · have hdet : ∃ bid2 rc2 b2, viewBlock (detach s h) h = some (bid2, rc2, b2) := by
      rcases Nat.lt_or_ge 1 rc with hrc | hrc
      · exact ⟨_, _, _, detach_shared_view hv hrc⟩
      · rw [detach_not_shared hv hrc]
        exact ⟨_, _, _, hv⟩
    obtain ⟨bid2, rc2, b2, hd⟩ := hdet
    simp [opIndexMut, opIndexConst, hv, hi, hd, isErr]

/-- C6 witness: the out-of-range throw on a concrete 3-element container at
index 3, through the amended theorem. -/
theorem C6_index_error_witness :
    opIndexConst sThree 0 3 = .error (.outOfRange "Index is out of range") :=
  (C6_index_error_exact sThree 0 3 0 1 ⟨[1, 2, 3], ["a", "b", "c"], 3, 3⟩ rfl).2.2.2
    (by decide)

/-- C7: name lookup (both variants) throws `std::invalid_argument` carrying
the queried name exactly when no entry of the name sequence equals it, and a
lookup — failed or not — changes neither the storage nor any reference
count (the const overload cannot mutate, and the non-const overload
delegates to it without detaching). -/
theorem C7_name_not_found_exact (s : State) (h : Nat) (nm : String) (bid rc : Nat) (b : Block)
    (hv : viewBlock s h = some (bid, rc, b)) :
    (opNameConst s h nm =
      .error (.invalidArgument (nm ++ " is not found in the MyVector")) ↔ nm ∉ b.names) ∧
    ((opNameMut s h nm).2 =
      .error (.invalidArgument (nm ++ " is not found in the MyVector")) ↔ nm ∉ b.names) ∧
    (opNameMut s h nm).1 = s := by
  have key : opNameConst s h nm =
      .error (.invalidArgument (nm ++ " is not found in the MyVector")) ↔ nm ∉ b.names := by
    cases hf : findName b.names nm with
    | none =>
      simp only [opNameConst, hv, hf]
      simpa using findName_eq_none.mp hf
    | some j =>
      simp only [opNameConst, hv, hf]
      have hmem : nm ∈ b.names := List.get?_mem (findName_some hf).1
      simp [hmem]
  exact ⟨key, key, rfl⟩

/-- C7 witness: looking up the absent name "z" on a concrete container. -/
theorem C7_name_not_found_witness :
    opNameConst sThree 0 "z" =
      .error (.invalidArgument ("z" ++ " is not found in the MyVector")) :=
  ((C7_name_not_found_exact sThree 0 "z" 0 1
    ⟨[1, 2, 3], ["a", "b", "c"], 3, 3⟩ rfl).1).mpr (by decide)

/-- C8: when the queried name occurs, name lookup succeeds and whatever
reference it returns points into the handle's block at the position of the
first occurrence of the name, and reading that reference yields the value
positionally paired with it. -/
theorem C8_first_match_lookup (s : State) (h : Nat) (nm : String) (bid rc : Nat) (b : Block)
    (hv : viewBlock s h = some (bid, rc, b)) (hm : nm ∈ b.names) :
    isErr (opNameConst s h nm) = false ∧
    ∀ bid2 i, opNameConst s h nm = .ok (bid2, i) →
      bid2 = bid ∧ b.names.get? i = some nm ∧
      (∀ j, j < i → b.names.get? j ≠ some nm) ∧
      readValue s bid i = b.values.get? i := by
  have hl := viewBlock_lookup hv
  cases hf : findName b.names nm with
  | none => exact absurd (findName_eq_none.mp hf) (by simp [hm])
  | some i0 =>
    obtain ⟨hg, hfirst⟩ := findName_some hf
    constructor
    · simp [opNameConst, hv, hf, isErr]
    · intro bid2 i hok
      simp only [opNameConst, hv, hf] at hok
      cases hok
      refine ⟨rfl, hg, hfirst, ?_⟩
      simp [readValue, hl]

/-- C8 witness: on the spec's example container with entries
("a", 1), ("b", 2), ("a", 3), looking up "a" succeeds and reads the value 1
paired with the first occurrence. -/
theorem C8_first_match_witness :
    isErr (opNameConst sEx 0 "a") = false ∧ readValue sEx 0 0 = some 1 := by
  have hc := C8_first_match_lookup sEx 0 "a" 0 1 ⟨[1, 2, 3], ["a", "b", "a"], 3, 3⟩ rfl
    (by decide)
  refine ⟨hc.1, ?_⟩
  have h4 := (hc.2 0 0 rfl).2.2.2
  simpa using h4

/-- C9: detachment is a no-op on a handle whose block has count 1; on a
block with count greater than 1, the handle afterwards points at a fresh
block with count 1 carrying the same values and names in the same order,
and the old block survives with its count decremented by exactly one. -/
theorem C9_detach_correct (s : State) (h bid rc : Nat) (b : Block)
    (hv : viewBlock s h = some (bid, rc, b)) (hf : idsFresh s) :
    (rc = 1 → detach s h = s) ∧
    (1 < rc →
      viewBlock (detach s h) h =
        some (s.nextId, 1, ⟨b.values, b.names, b.values.length, b.names.length⟩) ∧
      lookupBlock (detach s h).blocks bid = some (rc - 1, b)) := by
  constructor
  · intro h1
    exact detach_not_shared hv (by omega)
  · intro hrc
    have hmem := lookupBlock_mem (viewBlock_lookup hv)
    have hlt : bid < s.nextId := hf _ hmem
    exact ⟨detach_shared_view hv hrc, detach_shared_old hv hrc (by omega)⟩

/-- C9 witness: detaching one of two handles sharing an empty block. -/
theorem C9_detach_witness :
    viewBlock (detach sShared 0) 0 = some (1, 1, ⟨[], [], 0, 0⟩) ∧
    lookupBlock (detach sShared 0).blocks 0 = some (1, ⟨[], [], 0, 0⟩) := by
  have hc := (C9_detach_correct sShared 0 0 2 ⟨[], [], 0, 0⟩ rfl (by decide)).2
    (by omega)
  exact hc

/-- C10: the non-const and the const name-keyed `operator[]` agree on every
input — the non-const one delegates to the const one (a const_cast), so
they select the same block position, fail on exactly the same inputs, and
the non-const one leaves the state unchanged. -/
theorem C10_name_lookup_overloads_agree (s : State) (h : Nat) (nm : String) :
    (opNameMut s h nm).1 = s ∧
    (opNameMut s h nm).2 = opNameConst s h nm ∧
    (isErr (opNameMut s h nm).2 = true ↔ isErr (opNameConst s h nm) = true) :=
  ⟨rfl, rfl, Iff.rfl⟩

end MyVec
